import Mathlib

/-!
# Verification of the permission status tracker (`runtime/js/10_permissions.js`)

A shallow embedding of the permission-status module: descriptor validation
(`isValidDescriptor`), descriptor normalization (`formDescriptor`), canonical
key derivation and the status-object identity cache (`cache`), the
`PermissionStatus` event-dispatch override, the `Permissions` facade in its
immediate (`querySync`/`requestSync`/`revokeSync`) and deferred
(`query`/`request`/`revoke`) forms, and `serializePermissions`.

JavaScript objects are modelled with value semantics: a property is either
absent, present with value `undefined`, or present with a string value.
Object identity of `PermissionStatus` instances is modelled by numeric ids
allocated from a counter in the cache state.
-/

set_option autoImplicit false

namespace Permissions10

/-- A JavaScript value that can sit in a descriptor property: `undefined`
or a string. -/
inductive JVal where
  | undef
  | str (s : String)
  deriving DecidableEq, Repr

/-- Reading a property: an absent property reads as `undefined`. -/
def readProp (p : Option JVal) : JVal :=
  p.getD JVal.undef

/-- JavaScript string coercion as performed by a template literal:
`undefined` prints as `"undefined"`. -/
def jvalToString : JVal → String
  | JVal.undef => "undefined"
  | JVal.str s => s

/-- JavaScript truthiness of a descriptor property value: `undefined` and
the empty string are falsy, every other string is truthy. -/
def truthy : JVal → Bool
  | JVal.undef => false
  | JVal.str s => s ≠ ""

/-- A permission descriptor object. Each field models a JS property:
`none` means the property is absent, `some v` that it is present with
value `v`. The `sys` kind's qualifier property is called `kind` in the
source; `variable` is a Lean keyword so the `env` kind's property is
`variable_` here. -/
structure Descriptor where
  name : Option JVal := none
  path : Option JVal := none
  host : Option JVal := none
  command : Option JVal := none
  variable_ : Option JVal := none
  kind : Option JVal := none
  deriving DecidableEq, Repr

/-- A raw argument to a facade operation: a primitive (not of JS type
"object"), `null`, or a descriptor object. -/
inductive RawDesc where
  | nonObject
  | jsNull
  | obj (d : Descriptor)
  deriving DecidableEq, Repr

/-- The eight recognized permission names (`permissionNames` in the source). -/
def permissionNames : List String :=
  ["read", "write", "net", "env", "sys", "run", "ffi", "hrtime"]

/-- `isValidDescriptor`: the argument is an object, not null, and its `name`
property is one of the eight permission names. -/
def isValidDescriptor : RawDesc → Bool
  | RawDesc.obj d =>
    match readProp d.name with
    | JVal.str s => permissionNames.contains s
    | JVal.undef => false
  | _ => false

/-- Permission states returned by the external decision engine. -/
inductive PermState where
  | granted
  | denied
  | prompt
  deriving DecidableEq, Repr

/-- Canonical key derivation, as performed at the top of `cache`:
start from the descriptor's `name` value; for `read`/`write`/`ffi` test
presence (`ReflectHas`) of `path` and append `-{path}&`; for `net`, `run`,
`env`, `sys` test truthiness of `host`/`command`/`variable`/`kind` and
append `-{value}&`; otherwise append `$`. -/
def cacheKey (d : Descriptor) : String :=
  if (readProp d.name = JVal.str "read" ∨ readProp d.name = JVal.str "write" ∨
      readProp d.name = JVal.str "ffi") ∧ d.path.isSome then
    jvalToString (readProp d.name) ++ ("-" ++ jvalToString (readProp d.path) ++ "&")
  else if readProp d.name = JVal.str "net" ∧ truthy (readProp d.host) then
    jvalToString (readProp d.name) ++ ("-" ++ jvalToString (readProp d.host) ++ "&")
  else if readProp d.name = JVal.str "run" ∧ truthy (readProp d.command) then
    jvalToString (readProp d.name) ++ ("-" ++ jvalToString (readProp d.command) ++ "&")
  else if readProp d.name = JVal.str "env" ∧ truthy (readProp d.variable_) then
    jvalToString (readProp d.name) ++ ("-" ++ jvalToString (readProp d.variable_) ++ "&")
  else if readProp d.name = JVal.str "sys" ∧ truthy (readProp d.kind) then
    jvalToString (readProp d.name) ++ ("-" ++ jvalToString (readProp d.kind) ++ "&")
  else
    jvalToString (readProp d.name) ++ "$"

/-- A `StatusCacheValue`: the mutable record pairing the current state with
the (identity of the) single live `PermissionStatus` for a key. -/
structure CacheEntry where
  state : PermState
  statusId : Nat
  deriving DecidableEq, Repr

/-- The process-wide status cache (`statusCache`) together with the id
allocator that models object identity of `PermissionStatus` instances. -/
structure CacheState where
  entries : List (String × CacheEntry)
  nextId : Nat
  deriving DecidableEq, Repr

/-- The empty cache at process start. -/
def initialState : CacheState := ⟨[], 0⟩

/-- `MapPrototypeGet`/`MapPrototypeHas` on the status cache. -/
def findEntry : List (String × CacheEntry) → String → Option CacheEntry
  | [], _ => none
  | (k', e) :: rest, k => if k' = k then some e else findEntry rest k

/-- In-place mutation of the record stored under a key (`status.state = state`):
the record keeps its identity (its `statusId`), only its state changes. -/
def setEntryState : List (String × CacheEntry) → String → PermState →
    List (String × CacheEntry)
  | [], _, _ => []
  | (k', e) :: rest, k, s =>
    if k' = k then (k', { e with state := s }) :: setEntryState rest k s
    else (k', e) :: setEntryState rest k s

/-- A dispatched "change" event, as fired by `cache` on a state change:
its target (the `PermissionStatus` identity), its `cancelable` flag, and
the value the target's `state` getter reads while the event is being
dispatched (the getter reads the backing record through the cache). -/
structure ChangeEvent where
  targetId : Nat
  cancelable : Bool
  observedState : Option PermState
  deriving DecidableEq, Repr

/-- Result of one `cache` call: the updated cache, the identity of the
returned `PermissionStatus`, and the events dispatched during the call. -/
structure ResolveResult where
  newState : CacheState
  statusId : Nat
  events : List ChangeEvent
  deriving DecidableEq, Repr

/-- `cache(desc, state)`: derive the canonical key; if a record exists,
update its state in place when it differs (dispatching one non-cancelable
"change" event on the existing status object after the mutation) and
return the existing status object; otherwise create a fresh record and a
fresh status object bound to it. -/
def cache (σ : CacheState) (desc : Descriptor) (state : PermState) :
    ResolveResult :=
  let key := cacheKey desc
  match findEntry σ.entries key with
  | some e =>
    if e.state ≠ state then
      let entries' := setEntryState σ.entries key state
      let σ' : CacheState := { σ with entries := entries' }
      { newState := σ',
        statusId := e.statusId,
        events := [{ targetId := e.statusId, cancelable := false,
                     observedState := (findEntry σ'.entries key).map (·.state) }] }
    else
      { newState := σ, statusId := e.statusId, events := [] }
  | none =>
    { newState := { entries := (key, ⟨state, σ.nextId⟩) :: σ.entries,
                    nextId := σ.nextId + 1 },
      statusId := σ.nextId,
      events := [] }

/-- Modelled from the spec: the external URL-to-path normalizer
(`normalize_path(urlLike) -> path`, `pathFromURL` in the source, defined
outside this file) is a pure function; on values that are not URL objects
(plain strings or `undefined`, the only values in this model) it returns
its argument unchanged. -/
def pathFromURL_model : JVal → JVal := fun v => v

/-- `formDescriptor`: for `read`/`write`/`ffi` assign
`desc.path = pathFromURL(desc.path)`, for `run` assign
`desc.command = pathFromURL(desc.command)`; other kinds pass through.
A JS assignment creates the property, so the assigned field is present
(`some _`) afterwards even when it was absent before. The external
normalizer is a parameter `pfu`. -/
def formDescriptor (pfu : JVal → JVal) (d : Descriptor) : Descriptor :=
  if readProp d.name = JVal.str "read" ∨ readProp d.name = JVal.str "write" ∨
      readProp d.name = JVal.str "ffi" then
    { d with path := some (pfu (readProp d.path)) }
  else if readProp d.name = JVal.str "run" then
    { d with command := some (pfu (readProp d.command)) }
  else d

/-- A thrown JS error. -/
inductive JSError where
  | typeError (msg : String)
  deriving DecidableEq, Repr

/-- The message of the invalid-descriptor `TypeError`: interpolates
`desc?.name` (which is `undefined` for `null` and primitive arguments). -/
def invalidDescriptorMsg (r : RawDesc) : String :=
  let nameStr := match r with
    | RawDesc.obj d => jvalToString (readProp d.name)
    | _ => "undefined"
  "The provided value \"" ++ nameStr ++ "\" is not a valid permission name."

/-- Result of one immediate facade operation: the updated cache, the
returned status id or the thrown error, the descriptors passed to the
external decision engine during the call, and the events dispatched. -/
structure OpResult where
  newState : CacheState
  result : Except JSError Nat
  engineCalls : List Descriptor
  events : List ChangeEvent
  deriving Repr

namespace Permissions

/-- `Permissions.prototype.querySync`: validate, normalize, call the
decision engine (`op_query_permission`, external: its answer is the
parameter `ans`), and thread the result through the cache. -/
def querySync (pfu : JVal → JVal) (ans : PermState) (σ : CacheState)
    (r : RawDesc) : OpResult :=
  if isValidDescriptor r then
    match r with
    | RawDesc.obj d =>
      let d' := formDescriptor pfu d
      let res := cache σ d' ans
      { newState := res.newState, result := Except.ok res.statusId,
        engineCalls := [d'], events := res.events }
    | _ =>
      { newState := σ, result := Except.error (JSError.typeError (invalidDescriptorMsg r)),
        engineCalls := [], events := [] }
  else
    { newState := σ, result := Except.error (JSError.typeError (invalidDescriptorMsg r)),
      engineCalls := [], events := [] }

/-- `Permissions.prototype.revokeSync`: same body as `querySync` except the
engine call is `op_revoke_permission`. -/
def revokeSync (pfu : JVal → JVal) (ans : PermState) (σ : CacheState)
    (r : RawDesc) : OpResult :=
  if isValidDescriptor r then
    match r with
    | RawDesc.obj d =>
      let d' := formDescriptor pfu d
      let res := cache σ d' ans
      { newState := res.newState, result := Except.ok res.statusId,
        engineCalls := [d'], events := res.events }
    | _ =>
      { newState := σ, result := Except.error (JSError.typeError (invalidDescriptorMsg r)),
        engineCalls := [], events := [] }
  else
    { newState := σ, result := Except.error (JSError.typeError (invalidDescriptorMsg r)),
      engineCalls := [], events := [] }

/-- `Permissions.prototype.requestSync`: same body as `querySync` except
the engine call is `op_request_permission`. -/
def requestSync (pfu : JVal → JVal) (ans : PermState) (σ : CacheState)
    (r : RawDesc) : OpResult :=
  if isValidDescriptor r then
    match r with
    | RawDesc.obj d =>
      let d' := formDescriptor pfu d
      let res := cache σ d' ans
      { newState := res.newState, result := Except.ok res.statusId,
        engineCalls := [d'], events := res.events }
    | _ =>
      { newState := σ, result := Except.error (JSError.typeError (invalidDescriptorMsg r)),
        engineCalls := [], events := [] }
  else
    { newState := σ, result := Except.error (JSError.typeError (invalidDescriptorMsg r)),
      engineCalls := [], events := [] }

end Permissions

/-- A settled promise, as produced by `PromiseResolve`/`PromiseReject`. -/
inductive JSPromise (α : Type) where
  | resolved (a : α)
  | rejected (e : JSError)
  deriving DecidableEq, Repr

/-- Result of one deferred facade operation. -/
structure DeferredResult where
  newState : CacheState
  promise : JSPromise Nat
  engineCalls : List Descriptor
  events : List ChangeEvent
  deriving Repr

namespace Permissions

/-- `Permissions.prototype.query`: `try { return PromiseResolve(querySync(desc)) }
catch (error) { return PromiseReject(error) }`. -/
def query (pfu : JVal → JVal) (ans : PermState) (σ : CacheState)
    (r : RawDesc) : DeferredResult :=
  let res := querySync pfu ans σ r
  match res.result with
  | Except.ok v =>
    { newState := res.newState, promise := JSPromise.resolved v,
      engineCalls := res.engineCalls, events := res.events }
  | Except.error e =>
    { newState := res.newState, promise := JSPromise.rejected e,
      engineCalls := res.engineCalls, events := res.events }

/-- `Permissions.prototype.revoke`: the same wrapper around `revokeSync`. -/
def revoke (pfu : JVal → JVal) (ans : PermState) (σ : CacheState)
    (r : RawDesc) : DeferredResult :=
  let res := revokeSync pfu ans σ r
  match res.result with
  | Except.ok v =>
    { newState := res.newState, promise := JSPromise.resolved v,
      engineCalls := res.engineCalls, events := res.events }
  | Except.error e =>
    { newState := res.newState, promise := JSPromise.rejected e,
      engineCalls := res.engineCalls, events := res.events }

/-- `Permissions.prototype.request`: the same wrapper around `requestSync`. -/
def request (pfu : JVal → JVal) (ans : PermState) (σ : CacheState)
    (r : RawDesc) : DeferredResult :=
  let res := requestSync pfu ans σ r
  match res.result with
  | Except.ok v =>
    { newState := res.newState, promise := JSPromise.resolved v,
      engineCalls := res.engineCalls, events := res.events }
  | Except.error e =>
    { newState := res.newState, promise := JSPromise.rejected e,
      engineCalls := res.engineCalls, events := res.events }

end Permissions

/-- Which facade operation a step of a process run invokes. -/
inductive OpKind where
  | queryOp
  | requestOp
  | revokeOp
  deriving DecidableEq, Repr

/-- One step of a process run: the operation invoked, its raw argument,
and the state the external decision engine answers with at that moment
(the engine is external and may answer differently at each step). -/
structure Step where
  op : OpKind
  desc : RawDesc
  answer : PermState
  deriving DecidableEq, Repr

/-- Execute one step of a run through the facade. -/
def stepRun (pfu : JVal → JVal) (σ : CacheState) (st : Step) : OpResult :=
  match st.op with
  | OpKind.queryOp => Permissions.querySync pfu st.answer σ st.desc
  | OpKind.requestOp => Permissions.requestSync pfu st.answer σ st.desc
  | OpKind.revokeOp => Permissions.revokeSync pfu st.answer σ st.desc

/-- Execute a whole sequence of facade calls, collecting each call's
outcome. -/
def runSteps (pfu : JVal → JVal) (σ : CacheState) :
    List Step → CacheState × List (Except JSError Nat)
  | [] => (σ, [])
  | st :: rest =>
    let r := stepRun pfu σ st
    let rec' := runSteps pfu r.newState rest
    (rec'.1, r.result :: rec'.2)

/-- The list of outcomes of a run started from the empty cache. -/
def runResults (pfu : JVal → JVal) (steps : List Step) :
    List (Except JSError Nat) :=
  (runSteps pfu initialState steps).2

/-! ## `PermissionStatus`: construction guard and event dispatch -/

/-- A DOM-style event as seen by the dispatch path: its `cancelable` flag
and its `defaultPrevented` flag. -/
structure JSEvent where
  cancelable : Bool
  defaultPrevented : Bool
  deriving DecidableEq, Repr

/-- `Event.prototype.preventDefault`: marks the event prevented only when
it is cancelable. -/
def preventDefault (e : JSEvent) : JSEvent :=
  if e.cancelable then { e with defaultPrevented := true } else e

/-- The `PermissionStatus` object as an event target: its registered
listeners (each reduced to its observable effect: whether it calls
`preventDefault`), its assignable `onchange` slot (`none` models `null`;
`some b` a handler that calls `preventDefault` iff `b`), and the
reference to its backing cache record (`#state`), by record identity. -/
structure PermissionStatus where
  stateRef : Option Nat
  onchange : Option Bool
  listeners : List Bool
  deriving DecidableEq, Repr

/-- The value passed as `key` to the `PermissionStatus` constructor:
either the restricted `illegalConstructorKey` token or any other JS value
(the default `null` included). -/
inductive ConstructorKey where
  | illegalConstructorKey
  | other (v : Nat)
  deriving DecidableEq, Repr

/-- The `PermissionStatus` constructor: if the `key` argument is not the
restricted token, throw `TypeError "Illegal constructor."` before any
state is attached; otherwise build the object with the given backing
record, an empty listener list (fresh `EventTarget`) and a `null`
`onchange` slot. -/
def PermissionStatus.construct (state : Option Nat) (key : ConstructorKey) :
    Except JSError PermissionStatus :=
  if key ≠ ConstructorKey.illegalConstructorKey then
    Except.error (JSError.typeError "Illegal constructor.")
  else
    Except.ok { stateRef := state, onchange := none, listeners := [] }

/-- Modelled from the spec: the generic event-target collaborator
(`EventTarget.prototype.dispatchEvent`, defined outside this file) runs
every registered listener in order on the event and returns whether the
event was not marked prevented. -/
def superDispatchEvent (listeners : List Bool) (e : JSEvent) :
    JSEvent × Bool :=
  let e' := listeners.foldl (fun ev l => if l then preventDefault ev else ev) e
  (e', !e'.defaultPrevented)

/-- The observable outcome of `PermissionStatus.prototype.dispatchEvent`:
the event as it ends up, the returned boolean, how many registered
listeners ran, and whether the `onchange` slot ran. -/
structure DispatchOutcome where
  finalEvent : JSEvent
  returned : Bool
  listenersRan : Nat
  onchangeRan : Bool
  deriving DecidableEq, Repr

/-- `PermissionStatus.prototype.dispatchEvent`: run the inherited dispatch
(all registered listeners); if it reported not-prevented and `onchange` is
set, call `onchange` and recompute the return value from
`event.defaultPrevented`. -/
def PermissionStatus.dispatchEvent (st : PermissionStatus) (e : JSEvent) :
    DispatchOutcome :=
  let sup := superDispatchEvent st.listeners e
  match st.onchange with
  | some h =>
    if sup.2 then
      let e2 := if h then preventDefault sup.1 else sup.1
      { finalEvent := e2, returned := !e2.defaultPrevented,
        listenersRan := st.listeners.length, onchangeRan := true }
    else
      { finalEvent := sup.1, returned := sup.2,
        listenersRan := st.listeners.length, onchangeRan := false }
  | none =>
    { finalEvent := sup.1, returned := sup.2,
      listenersRan := st.listeners.length, onchangeRan := false }

/-! ## `serializePermissions` -/

/-- A value held in a permissions configuration object: `undefined`, an
array (of URL-like elements, modelled as `JVal`s), or any other non-array
value (opaque). -/
inductive ConfigVal where
  | undefinedV
  | arr (elems : List JVal)
  | other (tag : Nat)
  deriving DecidableEq, Repr

/-- A raw argument to `serializePermissions`: a primitive, `null`, or an
object given by its properties. -/
inductive Config where
  | nonObject (tag : Nat)
  | jsNull
  | obj (props : List (String × ConfigVal))
  deriving DecidableEq, Repr

/-- Property read on a configuration object: first binding wins, absent
properties read as `undefined`. -/
def getProp : List (String × ConfigVal) → String → ConfigVal
  | [], _ => ConfigVal.undefinedV
  | (k', v) :: rest, k => if k' = k then v else getProp rest k

/-- The per-value transformation of the first loop of
`serializePermissions`: an array value is mapped through `pathFromURL`
element by element, any other value is carried over unchanged. -/
def serializeFsVal (pfu : JVal → JVal) : ConfigVal → ConfigVal
  | ConfigVal.arr xs => ConfigVal.arr (xs.map pfu)
  | v => v

/-- The per-value transformation of the second loop of
`serializePermissions`: an array value is copied verbatim
(`ArrayPrototypeSlice`), any other value is carried over unchanged. -/
def serializeCopyVal : ConfigVal → ConfigVal
  | ConfigVal.arr xs => ConfigVal.arr xs
  | v => v

/-- The first loop of `serializePermissions`, over
`["read", "write", "run", "ffi"]`. -/
def serializeFsKeys (pfu : JVal → JVal) (props : List (String × ConfigVal)) :
    List String → List (String × ConfigVal)
  | [] => []
  | k :: rest =>
    (k, serializeFsVal pfu (getProp props k)) :: serializeFsKeys pfu props rest

/-- The second loop of `serializePermissions`, over
`["env", "hrtime", "net", "sys"]`. -/
def serializeCopyKeys (props : List (String × ConfigVal)) :
    List String → List (String × ConfigVal)
  | [] => []
  | k :: rest =>
    (k, serializeCopyVal (getProp props k)) :: serializeCopyKeys props rest

/-- `serializePermissions`: on a non-null object build a fresh object whose
`read`/`write`/`run`/`ffi` properties have array values rewritten through
`pathFromURL` and whose `env`/`hrtime`/`net`/`sys` properties have array
values copied; any other argument is returned unchanged. -/
def serializePermissions (pfu : JVal → JVal) (permissions : Config) : Config :=
  match permissions with
  | Config.obj props =>
    Config.obj
      (serializeFsKeys pfu props ["read", "write", "run", "ffi"] ++
       serializeCopyKeys props ["env", "hrtime", "net", "sys"])
  | p => p

/-! ## Lemmas about the status cache -/

theorem findEntry_setEntryState_self (l : List (String × CacheEntry))
    (k : String) (s : PermState) :
    findEntry (setEntryState l k s) k =
      (findEntry l k).map (fun e => { e with state := s }) := by
  induction l with
  | nil => rfl
  | cons p rest ih =>
    obtain ⟨k', e⟩ := p
    by_cases h : k' = k
    · simp [setEntryState, findEntry, h]
    · simp [setEntryState, findEntry, h, ih]

theorem findEntry_setEntryState_ne (l : List (String × CacheEntry))
    (k k' : String) (s : PermState) (h : k' ≠ k) :
    findEntry (setEntryState l k s) k' = findEntry l k' := by
  induction l with
  | nil => rfl
  | cons p rest ih =>
    obtain ⟨k'', e⟩ := p
    by_cases hk : k'' = k
    · subst hk
      simp [setEntryState, findEntry, Ne.symm h, ih]
    · by_cases hk' : k'' = k'
      · simp [setEntryState, findEntry, hk, hk', h]
      · simp [setEntryState, findEntry, hk, hk', ih]

/-- The status object returned by `cache` for a key that is already present
is the one stored under that key. -/
theorem cache_statusId_of_found (σ : CacheState) (d : Descriptor)
    (s : PermState) (e : CacheEntry)
    (h : findEntry σ.entries (cacheKey d) = some e) :
    (cache σ d s).statusId = e.statusId := by
  by_cases hs : e.state = s <;> simp [cache, h, hs]

/-- After a `cache` call the key is mapped to a record holding the supplied
state and the identity of the returned status object. -/
theorem cache_findEntry_self (σ : CacheState) (d : Descriptor)
    (s : PermState) :
    findEntry (cache σ d s).newState.entries (cacheKey d) =
      some ⟨s, (cache σ d s).statusId⟩ := by
  cases h : findEntry σ.entries (cacheKey d) with
  | none => simp [cache, h, findEntry]
  | some e =>
    by_cases hs : e.state = s
    · simp [cache, h, hs]
      exact hs ▸ rfl
    · simp [cache, h, hs, findEntry_setEntryState_self]

/-- A `cache` call leaves every other key's record untouched. -/
theorem cache_findEntry_other (σ : CacheState) (d : Descriptor)
    (s : PermState) (k : String) (hk : k ≠ cacheKey d) :
    findEntry (cache σ d s).newState.entries k = findEntry σ.entries k := by
  have hk' : ¬ (cacheKey d = k) := fun hh => hk hh.symm
  cases h : findEntry σ.entries (cacheKey d) with
  | none => simp [cache, h, findEntry, hk']
  | some e =>
    by_cases hs : e.state = s
    · simp [cache, h, hs]
    · simp [cache, h, hs, findEntry_setEntryState_ne _ _ _ _ hk]

/-- A `cache` call never changes the identity of the status object stored
under any key. -/
theorem cache_preserves_statusId (σ : CacheState) (d : Descriptor)
    (s : PermState) (k : String) (e : CacheEntry)
    (h : findEntry σ.entries k = some e) :
    ∃ e', findEntry (cache σ d s).newState.entries k = some e' ∧
      e'.statusId = e.statusId := by
  by_cases hk : k = cacheKey d
  · subst hk
    refine ⟨⟨s, (cache σ d s).statusId⟩, cache_findEntry_self σ d s, ?_⟩
    exact cache_statusId_of_found σ d s e h
  · exact ⟨e, by rw [cache_findEntry_other σ d s k hk]; exact h, rfl⟩

/-- Well-formedness of a cache state: every stored status identity is below
the allocation counter, and distinct keys hold status objects of distinct
identities. -/
def WF (σ : CacheState) : Prop :=
  (∀ k e, findEntry σ.entries k = some e → e.statusId < σ.nextId) ∧
  (∀ k₁ k₂ e₁ e₂, findEntry σ.entries k₁ = some e₁ →
    findEntry σ.entries k₂ = some e₂ → k₁ ≠ k₂ → e₁.statusId ≠ e₂.statusId)

theorem WF_initial : WF initialState := by
  constructor
  · intro k e h
    simp [initialState, findEntry] at h
  · intro k₁ k₂ e₁ e₂ h₁ h₂ _
    simp [initialState, findEntry] at h₁

theorem cache_nextId_mono (σ : CacheState) (d : Descriptor) (s : PermState) :
    σ.nextId ≤ (cache σ d s).newState.nextId := by
  cases h : findEntry σ.entries (cacheKey d) with
  | none => simp [cache, h]
  | some e => by_cases hs : e.state = s <;> simp [cache, h, hs]

/-- When the key is new, `cache` allocates the next identity. -/
theorem cache_new_statusId (σ : CacheState) (d : Descriptor) (s : PermState)
    (h : findEntry σ.entries (cacheKey d) = none) :
    (cache σ d s).statusId = σ.nextId ∧
      (cache σ d s).newState.nextId = σ.nextId + 1 := by
  simp [cache, h]

/-- Every record in the cache after a `cache` call either existed before
with the same status identity, or is the freshly created record for the
resolved key with the freshly allocated identity. -/
theorem cache_entry_cases (σ : CacheState) (d : Descriptor) (s : PermState)
    (k : String) (e' : CacheEntry)
    (h : findEntry (cache σ d s).newState.entries k = some e') :
    (∃ e, findEntry σ.entries k = some e ∧ e'.statusId = e.statusId) ∨
    (k = cacheKey d ∧ e'.statusId = σ.nextId ∧
      findEntry σ.entries k = none ∧
      (cache σ d s).newState.nextId = σ.nextId + 1) := by
  by_cases hk : k = cacheKey d
  · subst hk
    rw [cache_findEntry_self σ d s] at h
    cases he : findEntry σ.entries (cacheKey d) with
    | some e =>
      left
      refine ⟨e, rfl, ?_⟩
      have h1 := cache_statusId_of_found σ d s e he
      have h2 : e' = ⟨s, (cache σ d s).statusId⟩ := by
        injection h.symm
      rw [h2, h1]
    | none =>
      right
      obtain ⟨hid, hnext⟩ := cache_new_statusId σ d s he
      have h2 : e' = ⟨s, (cache σ d s).statusId⟩ := by
        injection h.symm
      exact ⟨rfl, by rw [h2, hid], rfl, hnext⟩
  · left
    rw [cache_findEntry_other σ d s k hk] at h
    exact ⟨e', h, rfl⟩

theorem cache_WF (σ : CacheState) (d : Descriptor) (s : PermState)
    (hσ : WF σ) : WF (cache σ d s).newState := by
  obtain ⟨hbound, hinj⟩ := hσ
  have hmono := cache_nextId_mono σ d s
  constructor
  · intro k e' h
    rcases cache_entry_cases σ d s k e' h with ⟨e, he, hid⟩ | ⟨_, hid, _, hnext⟩
    · exact lt_of_lt_of_le (hid ▸ hbound k e he) hmono
    · rw [hid, hnext]
      omega
  · intro k₁ k₂ e₁ e₂ h₁ h₂ hne
    rcases cache_entry_cases σ d s k₁ e₁ h₁ with ⟨f₁, hf₁, hid₁⟩ | ⟨hk₁, hid₁, _, _⟩ <;>
      rcases cache_entry_cases σ d s k₂ e₂ h₂ with ⟨f₂, hf₂, hid₂⟩ | ⟨hk₂, hid₂, _, _⟩
    · rw [hid₁, hid₂]
      exact hinj _ _ _ _ hf₁ hf₂ hne
    · rw [hid₁, hid₂]
      have := hbound _ _ hf₁
      omega
    · rw [hid₁, hid₂]
      have := hbound _ _ hf₂
      omega
    · exact absurd (hk₁.trans hk₂.symm) hne

/-! ## Lemmas about canonical keys -/

/-- The identifying sub-field of a descriptor, per kind: `path` for
`read`/`write`/`ffi`, `host` for `net`, `command` for `run`, `variable`
for `env`, the kind qualifier for `sys`; `hrtime` has none. -/
def idField (d : Descriptor) : Option JVal :=
  match readProp d.name with
  | JVal.str "read" | JVal.str "write" | JVal.str "ffi" => d.path
  | JVal.str "net" => d.host
  | JVal.str "run" => d.command
  | JVal.str "env" => d.variable_
  | JVal.str "sys" => d.kind
  | _ => none

/-- Every canonical key is the descriptor's kind followed by either the
bare terminator `$` or a suffix `-{value}&`. -/
theorem cacheKey_shape (d : Descriptor) :
    ∃ s, (s = "$" ∨ ∃ v, s = "-" ++ v ++ "&") ∧
      cacheKey d = jvalToString (readProp d.name) ++ s := by
  unfold cacheKey
  split_ifs
  · exact ⟨_, Or.inr ⟨_, rfl⟩, rfl⟩
  · exact ⟨_, Or.inr ⟨_, rfl⟩, rfl⟩
  · exact ⟨_, Or.inr ⟨_, rfl⟩, rfl⟩
  · exact ⟨_, Or.inr ⟨_, rfl⟩, rfl⟩
  · exact ⟨_, Or.inr ⟨_, rfl⟩, rfl⟩
  · exact ⟨"$", Or.inl rfl, rfl⟩

theorem String.ext_of_data {s t : String} (h : s.data = t.data) : s = t :=
  String.ext h

/-- No permission name is a strict prefix of another. -/
theorem permissionNames_prefix_free (k₁ k₂ : String)
    (h₁ : k₁ ∈ permissionNames) (h₂ : k₂ ∈ permissionNames)
    (hp : k₁.data <+: k₂.data) : k₁ = k₂ := by
  fin_cases h₁ <;> fin_cases h₂ <;> revert hp <;> decide

/-- Keys derived for descriptors of different (valid) kinds differ,
whatever the suffixes are. -/
theorem key_ne_of_kind_ne (k₁ k₂ s₁ s₂ : String)
    (h₁ : k₁ ∈ permissionNames) (h₂ : k₂ ∈ permissionNames)
    (hne : k₁ ≠ k₂) : k₁ ++ s₁ ≠ k₂ ++ s₂ := by
  intro heq
  have hdata : k₁.data ++ s₁.data = k₂.data ++ s₂.data := by
    have := congrArg String.data heq
    rwa [String.data_append, String.data_append] at this
  have hp₁ : k₁.data <+: k₂.data ++ s₂.data := hdata ▸ List.prefix_append _ _
  have hp₂ : k₂.data <+: k₂.data ++ s₂.data := List.prefix_append _ _
  rcases List.prefix_or_prefix_of_prefix hp₁ hp₂ with hp | hp
  · exact hne (permissionNames_prefix_free k₁ k₂ h₁ h₂ hp)
  · exact hne (permissionNames_prefix_free k₂ k₁ h₂ h₁ hp).symm

/-- String append is left-cancellative. -/
theorem append_left_cancel_str {k s₁ s₂ : String} (h : k ++ s₁ = k ++ s₂) :
    s₁ = s₂ := by
  apply String.ext_of_data
  have := congrArg String.data h
  rw [String.data_append, String.data_append] at this
  exact List.append_cancel_left this

/-- A bare-terminator key never coincides with a suffixed key of the same
kind. -/
theorem key_bare_ne_suffixed (k v : String) :
    k ++ "$" ≠ k ++ ("-" ++ v ++ "&") := by
  intro h
  have h' := append_left_cancel_str h
  have hdata := congrArg String.data h'
  rw [String.data_append, String.data_append] at hdata
  simp at hdata

/-- Suffixed keys of the same kind with different sub-field values differ. -/
theorem key_suffixed_inj (k v w : String)
    (h : k ++ ("-" ++ v ++ "&") = k ++ ("-" ++ w ++ "&")) : v = w := by
  have h' := append_left_cancel_str h
  have hdata := congrArg String.data h'
  rw [String.data_append, String.data_append, String.data_append,
    String.data_append] at hdata
  exact String.ext_of_data
    (List.append_cancel_left (List.append_cancel_right hdata))

/-! ### Per-kind computation of the canonical key -/

theorem readProp_some (v : JVal) : readProp (some v) = v := rfl

theorem readProp_none : readProp none = JVal.undef := rfl

theorem cacheKey_rwf (d : Descriptor) (k : String)
    (hk : k = "read" ∨ k = "write" ∨ k = "ffi")
    (hname : readProp d.name = JVal.str k) (u : JVal)
    (hpath : d.path = some u) :
    cacheKey d = k ++ ("-" ++ jvalToString u ++ "&") := by
  rcases hk with rfl | rfl | rfl <;>
    simp [cacheKey, hname, hpath, readProp_some, jvalToString]

theorem cacheKey_net_truthy (d : Descriptor)
    (hname : readProp d.name = JVal.str "net")
    (hv : truthy (readProp d.host) = true) :
    cacheKey d = "net" ++ ("-" ++ jvalToString (readProp d.host) ++ "&") := by
  simp [cacheKey, hname, hv, jvalToString]

theorem cacheKey_net_bare (d : Descriptor)
    (hname : readProp d.name = JVal.str "net")
    (hv : truthy (readProp d.host) = false) :
    cacheKey d = "net" ++ "$" := by
  simp [cacheKey, hname, hv, jvalToString]

theorem cacheKey_run_truthy (d : Descriptor)
    (hname : readProp d.name = JVal.str "run")
    (hv : truthy (readProp d.command) = true) :
    cacheKey d = "run" ++ ("-" ++ jvalToString (readProp d.command) ++ "&") := by
  simp [cacheKey, hname, hv, jvalToString]

theorem cacheKey_run_bare (d : Descriptor)
    (hname : readProp d.name = JVal.str "run")
    (hv : truthy (readProp d.command) = false) :
    cacheKey d = "run" ++ "$" := by
  simp [cacheKey, hname, hv, jvalToString]

theorem cacheKey_env_truthy (d : Descriptor)
    (hname : readProp d.name = JVal.str "env")
    (hv : truthy (readProp d.variable_) = true) :
    cacheKey d = "env" ++ ("-" ++ jvalToString (readProp d.variable_) ++ "&") := by
  simp [cacheKey, hname, hv, jvalToString]

theorem cacheKey_env_bare (d : Descriptor)
    (hname : readProp d.name = JVal.str "env")
    (hv : truthy (readProp d.variable_) = false) :
    cacheKey d = "env" ++ "$" := by
  simp [cacheKey, hname, hv, jvalToString]

theorem cacheKey_sys_truthy (d : Descriptor)
    (hname : readProp d.name = JVal.str "sys")
    (hv : truthy (readProp d.kind) = true) :
    cacheKey d = "sys" ++ ("-" ++ jvalToString (readProp d.kind) ++ "&") := by
  simp [cacheKey, hname, hv, jvalToString]

theorem cacheKey_sys_bare (d : Descriptor)
    (hname : readProp d.name = JVal.str "sys")
    (hv : truthy (readProp d.kind) = false) :
    cacheKey d = "sys" ++ "$" := by
  simp [cacheKey, hname, hv, jvalToString]

theorem cacheKey_hrtime (d : Descriptor)
    (hname : readProp d.name = JVal.str "hrtime") :
    cacheKey d = "hrtime" ++ "$" := by
  simp [cacheKey, hname, jvalToString]

/-! ### Normalization lemmas -/

theorem formDescriptor_rwf (pfu : JVal → JVal) (d : Descriptor) (k : String)
    (hk : k = "read" ∨ k = "write" ∨ k = "ffi")
    (hname : readProp d.name = JVal.str k) :
    formDescriptor pfu d = { d with path := some (pfu (readProp d.path)) } := by
  rcases hk with rfl | rfl | rfl <;> simp [formDescriptor, hname]

theorem formDescriptor_run (pfu : JVal → JVal) (d : Descriptor)
    (hname : readProp d.name = JVal.str "run") :
    formDescriptor pfu d = { d with command := some (pfu (readProp d.command)) } := by
  simp [formDescriptor, hname]

theorem formDescriptor_other (pfu : JVal → JVal) (d : Descriptor) (k : String)
    (hk : k = "net" ∨ k = "env" ∨ k = "sys" ∨ k = "hrtime")
    (hname : readProp d.name = JVal.str k) :
    formDescriptor pfu d = d := by
  rcases hk with rfl | rfl | rfl | rfl <;> simp [formDescriptor, hname]

theorem formDescriptor_name (pfu : JVal → JVal) (d : Descriptor) :
    (formDescriptor pfu d).name = d.name := by
  unfold formDescriptor
  split_ifs <;> rfl

/-! ### The key partition -/

/-- Same valid kind, string-valued identifying sub-fields with different
values: the canonical keys differ. -/
theorem cacheKey_ne_same_kind (d₁ d₂ : Descriptor) (k : String)
    (hm : k ∈ permissionNames)
    (hn₁ : readProp d₁.name = JVal.str k)
    (hn₂ : readProp d₂.name = JVal.str k)
    (v w : String)
    (hv : idField d₁ = some (JVal.str v))
    (hw : idField d₂ = some (JVal.str w))
    (hvw : v ≠ w) : cacheKey d₁ ≠ cacheKey d₂ := by
  have jx : ∀ u : String, jvalToString (JVal.str u) = u := fun _ => rfl
  fin_cases hm
  -- read
  · have hp₁ : d₁.path = some (JVal.str v) := by simpa [idField, hn₁] using hv
    have hp₂ : d₂.path = some (JVal.str w) := by simpa [idField, hn₂] using hw
    rw [cacheKey_rwf d₁ "read" (Or.inl rfl) hn₁ _ hp₁,
      cacheKey_rwf d₂ "read" (Or.inl rfl) hn₂ _ hp₂, jx, jx]
    exact fun h => hvw (key_suffixed_inj _ _ _ h)
  -- write
  · have hp₁ : d₁.path = some (JVal.str v) := by simpa [idField, hn₁] using hv
    have hp₂ : d₂.path = some (JVal.str w) := by simpa [idField, hn₂] using hw
    rw [cacheKey_rwf d₁ "write" (Or.inr (Or.inl rfl)) hn₁ _ hp₁,
      cacheKey_rwf d₂ "write" (Or.inr (Or.inl rfl)) hn₂ _ hp₂, jx, jx]
    exact fun h => hvw (key_suffixed_inj _ _ _ h)
  -- net
  · have hp₁ : readProp d₁.host = JVal.str v := by
      have : d₁.host = some (JVal.str v) := by simpa [idField, hn₁] using hv
      rw [this, readProp_some]
    have hp₂ : readProp d₂.host = JVal.str w := by
      have : d₂.host = some (JVal.str w) := by simpa [idField, hn₂] using hw
      rw [this, readProp_some]
    by_cases hve : v = "" <;> by_cases hwe : w = ""
    · exact absurd (hve.trans hwe.symm) hvw
    · rw [cacheKey_net_bare d₁ hn₁ (by simp [hp₁, truthy, hve]),
        cacheKey_net_truthy d₂ hn₂ (by simp [hp₂, truthy, hwe])]
      exact key_bare_ne_suffixed _ _
    · rw [cacheKey_net_truthy d₁ hn₁ (by simp [hp₁, truthy, hve]),
        cacheKey_net_bare d₂ hn₂ (by simp [hp₂, truthy, hwe])]
      exact fun h => key_bare_ne_suffixed _ _ h.symm
    · rw [cacheKey_net_truthy d₁ hn₁ (by simp [hp₁, truthy, hve]),
        cacheKey_net_truthy d₂ hn₂ (by simp [hp₂, truthy, hwe]), hp₁, hp₂, jx, jx]
      exact fun h => hvw (key_suffixed_inj _ _ _ h)
  -- env
  · have hp₁ : readProp d₁.variable_ = JVal.str v := by
      have : d₁.variable_ = some (JVal.str v) := by simpa [idField, hn₁] using hv
      rw [this, readProp_some]
    have hp₂ : readProp d₂.variable_ = JVal.str w := by
      have : d₂.variable_ = some (JVal.str w) := by simpa [idField, hn₂] using hw
      rw [this, readProp_some]
    by_cases hve : v = "" <;> by_cases hwe : w = ""
    · exact absurd (hve.trans hwe.symm) hvw
    · rw [cacheKey_env_bare d₁ hn₁ (by simp [hp₁, truthy, hve]),
        cacheKey_env_truthy d₂ hn₂ (by simp [hp₂, truthy, hwe])]
      exact key_bare_ne_suffixed _ _
    · rw [cacheKey_env_truthy d₁ hn₁ (by simp [hp₁, truthy, hve]),
        cacheKey_env_bare d₂ hn₂ (by simp [hp₂, truthy, hwe])]
      exact fun h => key_bare_ne_suffixed _ _ h.symm
    · rw [cacheKey_env_truthy d₁ hn₁ (by simp [hp₁, truthy, hve]),
        cacheKey_env_truthy d₂ hn₂ (by simp [hp₂, truthy, hwe]), hp₁, hp₂, jx, jx]
      exact fun h => hvw (key_suffixed_inj _ _ _ h)
  -- sys
  · have hp₁ : readProp d₁.kind = JVal.str v := by
      have : d₁.kind = some (JVal.str v) := by simpa [idField, hn₁] using hv
      rw [this, readProp_some]
    have hp₂ : readProp d₂.kind = JVal.str w := by
      have : d₂.kind = some (JVal.str w) := by simpa [idField, hn₂] using hw
      rw [this, readProp_some]
    by_cases hve : v = "" <;> by_cases hwe : w = ""
    · exact absurd (hve.trans hwe.symm) hvw
    · rw [cacheKey_sys_bare d₁ hn₁ (by simp [hp₁, truthy, hve]),
        cacheKey_sys_truthy d₂ hn₂ (by simp [hp₂, truthy, hwe])]
      exact key_bare_ne_suffixed _ _
    · rw [cacheKey_sys_truthy d₁ hn₁ (by simp [hp₁, truthy, hve]),
        cacheKey_sys_bare d₂ hn₂ (by simp [hp₂, truthy, hwe])]
      exact fun h => key_bare_ne_suffixed _ _ h.symm
    · rw [cacheKey_sys_truthy d₁ hn₁ (by simp [hp₁, truthy, hve]),
        cacheKey_sys_truthy d₂ hn₂ (by simp [hp₂, truthy, hwe]), hp₁, hp₂, jx, jx]
      exact fun h => hvw (key_suffixed_inj _ _ _ h)
  -- run
  · have hp₁ : readProp d₁.command = JVal.str v := by
      have : d₁.command = some (JVal.str v) := by simpa [idField, hn₁] using hv
      rw [this, readProp_some]
    have hp₂ : readProp d₂.command = JVal.str w := by
      have : d₂.command = some (JVal.str w) := by simpa [idField, hn₂] using hw
      rw [this, readProp_some]
    by_cases hve : v = "" <;> by_cases hwe : w = ""
    · exact absurd (hve.trans hwe.symm) hvw
    · rw [cacheKey_run_bare d₁ hn₁ (by simp [hp₁, truthy, hve]),
        cacheKey_run_truthy d₂ hn₂ (by simp [hp₂, truthy, hwe])]
      exact key_bare_ne_suffixed _ _
    · rw [cacheKey_run_truthy d₁ hn₁ (by simp [hp₁, truthy, hve]),
        cacheKey_run_bare d₂ hn₂ (by simp [hp₂, truthy, hwe])]
      exact fun h => key_bare_ne_suffixed _ _ h.symm
    · rw [cacheKey_run_truthy d₁ hn₁ (by simp [hp₁, truthy, hve]),
        cacheKey_run_truthy d₂ hn₂ (by simp [hp₂, truthy, hwe]), hp₁, hp₂, jx, jx]
      exact fun h => hvw (key_suffixed_inj _ _ _ h)
  -- ffi
  · have hp₁ : d₁.path = some (JVal.str v) := by simpa [idField, hn₁] using hv
    have hp₂ : d₂.path = some (JVal.str w) := by simpa [idField, hn₂] using hw
    rw [cacheKey_rwf d₁ "ffi" (Or.inr (Or.inr rfl)) hn₁ _ hp₁,
      cacheKey_rwf d₂ "ffi" (Or.inr (Or.inr rfl)) hn₂ _ hp₂, jx, jx]
    exact fun h => hvw (key_suffixed_inj _ _ _ h)
  -- hrtime
  · simp [idField, hn₁] at hv

/-- The key partition: valid descriptors differing in kind, or of the same
kind with different string values of the identifying sub-field, derive
different canonical keys. -/
theorem cacheKey_partition (d₁ d₂ : Descriptor) (k₁ k₂ : String)
    (hm₁ : k₁ ∈ permissionNames) (hm₂ : k₂ ∈ permissionNames)
    (hn₁ : readProp d₁.name = JVal.str k₁)
    (hn₂ : readProp d₂.name = JVal.str k₂)
    (hdiff : k₁ ≠ k₂ ∨
      (k₁ = k₂ ∧ ∃ v w, idField d₁ = some (JVal.str v) ∧
        idField d₂ = some (JVal.str w) ∧ v ≠ w)) :
    cacheKey d₁ ≠ cacheKey d₂ := by
  rcases hdiff with hne | ⟨heq, v, w, hv, hw, hvw⟩
  · obtain ⟨s₁, _, hk₁⟩ := cacheKey_shape d₁
    obtain ⟨s₂, _, hk₂⟩ := cacheKey_shape d₂
    rw [hk₁, hk₂, hn₁, hn₂]
    exact key_ne_of_kind_ne k₁ k₂ s₁ s₂ hm₁ hm₂ hne
  · subst heq
    exact cacheKey_ne_same_kind d₁ d₂ k₁ hm₁ hn₁ hn₂ v w hv hw hvw

/-! ## Lemmas about the facade and about whole runs -/

/-- The three immediate operations have the same validation, normalization
and cache threading; only the external engine call differs, and the
engine's answer is a parameter here. -/
theorem requestSync_eq_querySync (pfu : JVal → JVal) (ans : PermState)
    (σ : CacheState) (r : RawDesc) :
    Permissions.requestSync pfu ans σ r = Permissions.querySync pfu ans σ r := rfl

theorem revokeSync_eq_querySync (pfu : JVal → JVal) (ans : PermState)
    (σ : CacheState) (r : RawDesc) :
    Permissions.revokeSync pfu ans σ r = Permissions.querySync pfu ans σ r := rfl

theorem stepRun_eq (pfu : JVal → JVal) (σ : CacheState) (st : Step) :
    stepRun pfu σ st = Permissions.querySync pfu st.answer σ st.desc := by
  cases st with
  | mk op desc answer => cases op <;> rfl

/-- An immediate operation on a valid descriptor: normalize, consult the
engine once, thread through the cache, return the cached status object. -/
theorem querySync_valid (pfu : JVal → JVal) (ans : PermState) (σ : CacheState)
    (d : Descriptor) (hv : isValidDescriptor (RawDesc.obj d) = true) :
    Permissions.querySync pfu ans σ (RawDesc.obj d) =
      { newState := (cache σ (formDescriptor pfu d) ans).newState,
        result := Except.ok (cache σ (formDescriptor pfu d) ans).statusId,
        engineCalls := [formDescriptor pfu d],
        events := (cache σ (formDescriptor pfu d) ans).events } := by
  simp [Permissions.querySync, hv]

/-- An immediate operation on an invalid argument: throw the
invalid-descriptor `TypeError`, leave the cache untouched, never call the
engine, dispatch nothing. -/
theorem querySync_invalid (pfu : JVal → JVal) (ans : PermState)
    (σ : CacheState) (r : RawDesc) (hv : isValidDescriptor r = false) :
    Permissions.querySync pfu ans σ r =
      { newState := σ,
        result := Except.error (JSError.typeError (invalidDescriptorMsg r)),
        engineCalls := [], events := [] } := by
  cases r <;> simp_all [Permissions.querySync, isValidDescriptor]

theorem runSteps_length (pfu : JVal → JVal) (σ : CacheState)
    (steps : List Step) :
    (runSteps pfu σ steps).2.length = steps.length := by
  induction steps generalizing σ with
  | nil => rfl
  | cons st rest ih => simp [runSteps, ih]

/-- One facade call never changes the identity of the status object stored
under any key. -/
theorem step_preserves_statusId (pfu : JVal → JVal) (σ : CacheState)
    (st : Step) (k : String) (e : CacheEntry)
    (h : findEntry σ.entries k = some e) :
    ∃ e', findEntry (stepRun pfu σ st).newState.entries k = some e' ∧
      e'.statusId = e.statusId := by
  rw [stepRun_eq]
  cases hv : isValidDescriptor st.desc with
  | false => rw [querySync_invalid pfu st.answer σ st.desc hv]; exact ⟨e, h, rfl⟩
  | true =>
    cases hd : st.desc with
    | obj d =>
      rw [querySync_valid pfu st.answer σ d (hd ▸ hv)]
      exact cache_preserves_statusId σ (formDescriptor pfu d) st.answer k e h
    | nonObject => rw [hd] at hv; simp [isValidDescriptor] at hv
    | jsNull => rw [hd] at hv; simp [isValidDescriptor] at hv

/-- A whole run never changes the identity of the status object stored
under any key. -/
theorem run_preserves_statusId (pfu : JVal → JVal) (steps : List Step)
    (σ : CacheState) (k : String) (e : CacheEntry)
    (h : findEntry σ.entries k = some e) :
    ∃ e', findEntry (runSteps pfu σ steps).1.entries k = some e' ∧
      e'.statusId = e.statusId := by
  induction steps generalizing σ e with
  | nil => exact ⟨e, h, rfl⟩
  | cons st rest ih =>
    obtain ⟨e₁, he₁, hid₁⟩ := step_preserves_statusId pfu σ st k e h
    obtain ⟨e₂, he₂, hid₂⟩ := ih (stepRun pfu σ st).newState e₁ he₁
    exact ⟨e₂, he₂, hid₂.trans hid₁⟩

theorem step_WF (pfu : JVal → JVal) (σ : CacheState) (st : Step)
    (hσ : WF σ) : WF (stepRun pfu σ st).newState := by
  rw [stepRun_eq]
  cases hv : isValidDescriptor st.desc with
  | false => rw [querySync_invalid pfu st.answer σ st.desc hv]; exact hσ
  | true =>
    cases hd : st.desc with
    | obj d =>
      rw [querySync_valid pfu st.answer σ d (hd ▸ hv)]
      exact cache_WF σ (formDescriptor pfu d) st.answer hσ
    | nonObject => rw [hd] at hv; simp [isValidDescriptor] at hv
    | jsNull => rw [hd] at hv; simp [isValidDescriptor] at hv

theorem run_WF (pfu : JVal → JVal) (steps : List Step) (σ : CacheState)
    (hσ : WF σ) : WF (runSteps pfu σ steps).1 := by
  induction steps generalizing σ with
  | nil => exact hσ
  | cons st rest ih => exact ih (stepRun pfu σ st).newState (step_WF pfu σ st hσ)

/-- The outcome of a valid facade call inside a run: the call returns a
status object whose identity the final cache still stores under the
descriptor's canonical key. -/
theorem run_result_spec (pfu : JVal → JVal) (steps : List Step)
    (σ : CacheState) (i : Nat) (hi : i < steps.length) (d : Descriptor)
    (hd : (steps.get ⟨i, hi⟩).desc = RawDesc.obj d)
    (hv : isValidDescriptor (RawDesc.obj d) = true) :
    ∃ id, (runSteps pfu σ steps).2.get? i = some (Except.ok id) ∧
      ∃ e, findEntry (runSteps pfu σ steps).1.entries
        (cacheKey (formDescriptor pfu d)) = some e ∧ e.statusId = id := by
  induction steps generalizing σ i with
  | nil => exact absurd hi (by simp)
  | cons st rest ih =>
    cases i with
    | zero =>
      simp only [List.get] at hd
      have hstep : stepRun pfu σ st =
          { newState := (cache σ (formDescriptor pfu d) st.answer).newState,
            result := Except.ok (cache σ (formDescriptor pfu d) st.answer).statusId,
            engineCalls := [formDescriptor pfu d],
            events := (cache σ (formDescriptor pfu d) st.answer).events } := by
        rw [stepRun_eq, hd, querySync_valid pfu st.answer σ d hv]
      refine ⟨(cache σ (formDescriptor pfu d) st.answer).statusId, ?_, ?_⟩
      · simp [runSteps, hstep]
      · have hself := cache_findEntry_self σ (formDescriptor pfu d) st.answer
        have hrun := run_preserves_statusId pfu rest
          (cache σ (formDescriptor pfu d) st.answer).newState
          (cacheKey (formDescriptor pfu d)) _ hself
        obtain ⟨e', he', hid'⟩ := hrun
        refine ⟨e', ?_, hid'⟩
        simp only [runSteps, hstep]
        exact he'
    | succ n =>
      have hn : n < rest.length := Nat.lt_of_succ_lt_succ hi
      have hd' : (rest.get ⟨n, hn⟩).desc = RawDesc.obj d := hd
      obtain ⟨id, hres, e, he, hid⟩ :=
        ih (stepRun pfu σ st).newState n hn hd'
      exact ⟨id, by simpa [runSteps] using hres, e, by simpa [runSteps] using he, hid⟩

/-- A valid descriptor's kind is one of the eight permission names. -/
theorem valid_name_mem (d : Descriptor) (k : String)
    (hv : isValidDescriptor (RawDesc.obj d) = true)
    (hn : readProp d.name = JVal.str k) : k ∈ permissionNames := by
  simp only [isValidDescriptor, hn] at hv
  simpa using hv

/-! ## Concrete inputs used by the witnesses -/

/-- The descriptor `{name: "read", path: "/tmp/a"}`. -/
def dReadTmpA : Descriptor :=
  { name := some (JVal.str "read"), path := some (JVal.str "/tmp/a") }

/-- The descriptor `{name: "net", host: "example.com"}`. -/
def dNetExample : Descriptor :=
  { name := some (JVal.str "net"), host := some (JVal.str "example.com") }

/-- A two-call run: query then revoke, both on `{name: "read", path: "/tmp/a"}`. -/
def stepsIdentity : List Step :=
  [⟨OpKind.queryOp, RawDesc.obj dReadTmpA, PermState.granted⟩,
   ⟨OpKind.revokeOp, RawDesc.obj dReadTmpA, PermState.denied⟩]

/-- A two-call run: a read-path query then a net-host query. -/
def stepsPartition : List Step :=
  [⟨OpKind.queryOp, RawDesc.obj dReadTmpA, PermState.granted⟩,
   ⟨OpKind.queryOp, RawDesc.obj dNetExample, PermState.prompt⟩]

/-- A cache holding one record: the key derived for `dReadTmpA`, state
granted, status object 0. -/
def cacheOneRead : CacheState :=
  ⟨[("read-/tmp/a&", ⟨PermState.granted, 0⟩)], 1⟩

/-! ## The claims -/

/-- C1 (Identity): in any sequence of `querySync`/`requestSync`/`revokeSync`
calls starting from process start, any two calls whose valid descriptors
normalize to the same canonical key (same kind and identifying sub-field)
return the same `PermissionStatus` object instance. -/
theorem identity_same_status_object (pfu : JVal → JVal) (steps : List Step)
    (i j : Nat) (hi : i < steps.length) (hj : j < steps.length)
    (di dj : Descriptor)
    (hdi : (steps.get ⟨i, hi⟩).desc = RawDesc.obj di)
    (hdj : (steps.get ⟨j, hj⟩).desc = RawDesc.obj dj)
    (hvi : isValidDescriptor (RawDesc.obj di) = true)
    (hvj : isValidDescriptor (RawDesc.obj dj) = true)
    (hkey : cacheKey (formDescriptor pfu di) = cacheKey (formDescriptor pfu dj)) :
    ∃ n, (runResults pfu steps).get? i = some (Except.ok n) ∧
      (runResults pfu steps).get? j = some (Except.ok n) := by
  obtain ⟨n, hres_i, e_i, he_i, hid_i⟩ :=
    run_result_spec pfu steps initialState i hi di hdi hvi
  obtain ⟨m, hres_j, e_j, he_j, hid_j⟩ :=
    run_result_spec pfu steps initialState j hj dj hdj hvj
  rw [hkey] at he_i
  rw [he_i] at he_j
  have hee : e_i = e_j := by injection he_j
  refine ⟨n, hres_i, ?_⟩
  have : n = m := by rw [← hid_i, ← hid_j, hee]
  rw [← this] at hres_j
  exact hres_j

/-- C1 witness: a two-call run on the same read path returns the same
instance from both calls. -/
theorem identity_same_status_object_witness :
    ∃ n, (runResults pathFromURL_model stepsIdentity).get? 0 =
        some (Except.ok n) ∧
      (runResults pathFromURL_model stepsIdentity).get? 1 =
        some (Except.ok n) :=
  identity_same_status_object pathFromURL_model stepsIdentity
    0 1 (by decide) (by decide) dReadTmpA dReadTmpA rfl rfl
    (by decide) (by decide) rfl

/-- C2 (Key partition): two valid calls whose normalized descriptors differ
in kind, or agree in kind but carry different string values of the
identifying sub-field, derive different canonical keys and return distinct
`PermissionStatus` instances. -/
theorem key_partition_distinct_instances (pfu : JVal → JVal)
    (steps : List Step) (i j : Nat)
    (hi : i < steps.length) (hj : j < steps.length)
    (di dj : Descriptor)
    (hdi : (steps.get ⟨i, hi⟩).desc = RawDesc.obj di)
    (hdj : (steps.get ⟨j, hj⟩).desc = RawDesc.obj dj)
    (hvi : isValidDescriptor (RawDesc.obj di) = true)
    (hvj : isValidDescriptor (RawDesc.obj dj) = true)
    (k₁ k₂ : String)
    (hn₁ : readProp (formDescriptor pfu di).name = JVal.str k₁)
    (hn₂ : readProp (formDescriptor pfu dj).name = JVal.str k₂)
    (hdiff : k₁ ≠ k₂ ∨
      (k₁ = k₂ ∧ ∃ v w, idField (formDescriptor pfu di) = some (JVal.str v) ∧
        idField (formDescriptor pfu dj) = some (JVal.str w) ∧ v ≠ w)) :
    cacheKey (formDescriptor pfu di) ≠ cacheKey (formDescriptor pfu dj) ∧
    ∃ n m, n ≠ m ∧ (runResults pfu steps).get? i = some (Except.ok n) ∧
      (runResults pfu steps).get? j = some (Except.ok m) := by
  have hm₁ : k₁ ∈ permissionNames := by
    rw [formDescriptor_name] at hn₁
    exact valid_name_mem di k₁ hvi hn₁
  have hm₂ : k₂ ∈ permissionNames := by
    rw [formDescriptor_name] at hn₂
    exact valid_name_mem dj k₂ hvj hn₂
  have hkey : cacheKey (formDescriptor pfu di) ≠ cacheKey (formDescriptor pfu dj) :=
    cacheKey_partition _ _ k₁ k₂ hm₁ hm₂ hn₁ hn₂ hdiff
  refine ⟨hkey, ?_⟩
  obtain ⟨n, hres_i, e_i, he_i, hid_i⟩ :=
    run_result_spec pfu steps initialState i hi di hdi hvi
  obtain ⟨m, hres_j, e_j, he_j, hid_j⟩ :=
    run_result_spec pfu steps initialState j hj dj hdj hvj
  refine ⟨n, m, ?_, hres_i, hres_j⟩
  have hwf := run_WF pfu steps initialState WF_initial
  have := hwf.2 _ _ _ _ he_i he_j hkey
  rw [← hid_i, ← hid_j]
  exact this

/-- C2 witness: a read-path call and a net-host call return distinct
instances. -/
theorem key_partition_distinct_instances_witness :
    cacheKey (formDescriptor pathFromURL_model dReadTmpA) ≠
      cacheKey (formDescriptor pathFromURL_model dNetExample) ∧
    ∃ n m, n ≠ m ∧
      (runResults pathFromURL_model stepsPartition).get? 0 =
        some (Except.ok n) ∧
      (runResults pathFromURL_model stepsPartition).get? 1 =
        some (Except.ok m) :=
  key_partition_distinct_instances pathFromURL_model stepsPartition
    0 1 (by decide) (by decide) dReadTmpA dNetExample rfl rfl
    (by decide) (by decide) "read" "net" rfl rfl (Or.inl (by decide))

/-- C3 (Monotone notification): resolving a key already in the cache with
an unchanged state dispatches nothing and returns the existing instance
with the whole cache untouched; resolving with a changed state mutates the
record's state in place (same identity, state updated, all other keys
untouched), dispatches exactly one non-cancelable "change" event on the
existing instance whose `state` getter already reads the new value during
dispatch, and returns the existing instance. -/
theorem monotone_notification (σ : CacheState) (d : Descriptor)
    (s : PermState) (e : CacheEntry)
    (he : findEntry σ.entries (cacheKey d) = some e) :
    (e.state = s →
      cache σ d s = { newState := σ, statusId := e.statusId, events := [] }) ∧
    (e.state ≠ s →
      (cache σ d s).statusId = e.statusId ∧
      (cache σ d s).events =
        [{ targetId := e.statusId, cancelable := false,
           observedState := some s }] ∧
      findEntry (cache σ d s).newState.entries (cacheKey d) =
        some ⟨s, e.statusId⟩ ∧
      (∀ k, k ≠ cacheKey d →
        findEntry (cache σ d s).newState.entries k = findEntry σ.entries k)) := by
  constructor
  · intro hs
    simp [cache, he, hs]
  · intro hs
    refine ⟨cache_statusId_of_found σ d s e he, ?_,
      cache_findEntry_self σ d s ▸ ?_, fun k hk => cache_findEntry_other σ d s k hk⟩
    · simp [cache, he, hs, findEntry_setEntryState_self]
    · rw [cache_statusId_of_found σ d s e he]

/-- C3 witness: on a one-entry cache, re-resolving with the same state is a
no-op and re-resolving with a new state fires exactly one event carrying
the new state. -/
theorem monotone_notification_witness :
    (PermState.granted = PermState.granted →
      cache cacheOneRead dReadTmpA PermState.granted =
        { newState := cacheOneRead, statusId := 0, events := [] }) ∧
    (PermState.granted ≠ PermState.denied →
      (cache cacheOneRead dReadTmpA PermState.denied).statusId = 0 ∧
      (cache cacheOneRead dReadTmpA PermState.denied).events =
        [{ targetId := 0, cancelable := false,
           observedState := some PermState.denied }] ∧
      findEntry (cache cacheOneRead dReadTmpA PermState.denied).newState.entries
        (cacheKey dReadTmpA) = some ⟨PermState.denied, 0⟩ ∧
      (∀ k, k ≠ cacheKey dReadTmpA →
        findEntry (cache cacheOneRead dReadTmpA
          PermState.denied).newState.entries k =
          findEntry cacheOneRead.entries k)) :=
  ⟨(monotone_notification cacheOneRead dReadTmpA PermState.granted
      ⟨PermState.granted, 0⟩ (by decide)).1,
   (monotone_notification cacheOneRead dReadTmpA PermState.denied
      ⟨PermState.granted, 0⟩ (by decide)).2⟩

/-- C4 (Validation): every invalid argument (not an object, null, or with
an unrecognized kind) makes each immediate operation throw the
invalid-descriptor `TypeError` with the cache untouched, the decision
engine never consulted and nothing dispatched; the deferred forms return
the same outcome as a rejected promise. -/
theorem validation_rejects_invalid (pfu : JVal → JVal) (ans : PermState)
    (σ : CacheState) (r : RawDesc) (h : isValidDescriptor r = false) :
    Permissions.querySync pfu ans σ r =
      { newState := σ,
        result := Except.error (JSError.typeError (invalidDescriptorMsg r)),
        engineCalls := [], events := [] } ∧
    Permissions.requestSync pfu ans σ r =
      { newState := σ,
        result := Except.error (JSError.typeError (invalidDescriptorMsg r)),
        engineCalls := [], events := [] } ∧
    Permissions.revokeSync pfu ans σ r =
      { newState := σ,
        result := Except.error (JSError.typeError (invalidDescriptorMsg r)),
        engineCalls := [], events := [] } ∧
    Permissions.query pfu ans σ r =
      { newState := σ,
        promise := JSPromise.rejected (JSError.typeError (invalidDescriptorMsg r)),
        engineCalls := [], events := [] } ∧
    Permissions.request pfu ans σ r =
      { newState := σ,
        promise := JSPromise.rejected (JSError.typeError (invalidDescriptorMsg r)),
        engineCalls := [], events := [] } ∧
    Permissions.revoke pfu ans σ r =
      { newState := σ,
        promise := JSPromise.rejected (JSError.typeError (invalidDescriptorMsg r)),
        engineCalls := [], events := [] } := by
  have hq := querySync_invalid pfu ans σ r h
  refine ⟨hq, ?_, ?_, ?_, ?_, ?_⟩
  · rw [requestSync_eq_querySync]; exact hq
  · rw [revokeSync_eq_querySync]; exact hq
  · simp [Permissions.query, hq]
  · simp [Permissions.request, requestSync_eq_querySync, hq]
  · simp [Permissions.revoke, revokeSync_eq_querySync, hq]

/-- C4 witness: `query({})`, `query({name: "bogus"})` and `query(null)` all
reject with the invalid-descriptor error, leaving the cache untouched and
never consulting the engine. -/
theorem validation_rejects_invalid_witness :
    Permissions.query pathFromURL_model PermState.granted initialState
        (RawDesc.obj {}) =
      { newState := initialState,
        promise := JSPromise.rejected
          (JSError.typeError (invalidDescriptorMsg (RawDesc.obj {}))),
        engineCalls := [], events := [] } ∧
    Permissions.query pathFromURL_model PermState.granted initialState
        (RawDesc.obj { name := some (JVal.str "bogus") }) =
      { newState := initialState,
        promise := JSPromise.rejected
          (JSError.typeError (invalidDescriptorMsg
            (RawDesc.obj { name := some (JVal.str "bogus") }))),
        engineCalls := [], events := [] } ∧
    Permissions.query pathFromURL_model PermState.granted initialState
        RawDesc.jsNull =
      { newState := initialState,
        promise := JSPromise.rejected
          (JSError.typeError (invalidDescriptorMsg RawDesc.jsNull)),
        engineCalls := [], events := [] } :=
  ⟨(validation_rejects_invalid pathFromURL_model PermState.granted initialState
      (RawDesc.obj {}) (by decide)).2.2.2.1,
   (validation_rejects_invalid pathFromURL_model PermState.granted initialState
      (RawDesc.obj { name := some (JVal.str "bogus") }) (by decide)).2.2.2.1,
   (validation_rejects_invalid pathFromURL_model PermState.granted initialState
      RawDesc.jsNull (by decide)).2.2.2.1⟩

/-- The valid descriptor `{name: "read"}` carrying no path property. -/
def dReadNoPath : Descriptor := { name := some (JVal.str "read") }

/-- C5 counterexample: `{name: "read"}` is a valid descriptor whose
identifying sub-field is absent, yet the canonical key derived during a
facade operation is not the bare `"read$"`: normalization assigns
`desc.path = pathFromURL(desc.path)`, which materializes the `path`
property (value `undefined`), so the key becomes `"read-undefined&"`. -/
theorem absent_field_key_counterexample :
    isValidDescriptor (RawDesc.obj dReadNoPath) = true ∧
    dReadNoPath.path = none ∧
    pathFromURL_model JVal.undef = JVal.undef ∧
    cacheKey (formDescriptor pathFromURL_model dReadNoPath) = "read-undefined&" ∧
    cacheKey (formDescriptor pathFromURL_model dReadNoPath) ≠ "read$" :=
  ⟨by decide, rfl, rfl, by decide, by decide⟩

/-- C5 amended: with a normalizer that passes `undefined` through, a valid
descriptor with an absent identifying sub-field derives, after
normalization, the bare key `"{kind}$"` for kinds `net`/`env`/`sys`/`run`,
and `"{kind}$"` for `hrtime` whatever its fields; for `read`/`write`/`ffi`
normalization materializes the `path` property, so the key is the one
shared suffixed key `"{kind}-undefined&"` — still a single key per kind. -/
theorem absent_field_key_amended (pfu : JVal → JVal)
    (hpfu : pfu JVal.undef = JVal.undef) (d : Descriptor) (k : String)
    (hn : readProp d.name = JVal.str k) :
    (k = "net" → d.host = none →
      cacheKey (formDescriptor pfu d) = "net" ++ "$") ∧
    (k = "env" → d.variable_ = none →
      cacheKey (formDescriptor pfu d) = "env" ++ "$") ∧
    (k = "sys" → d.kind = none →
      cacheKey (formDescriptor pfu d) = "sys" ++ "$") ∧
    (k = "run" → d.command = none →
      cacheKey (formDescriptor pfu d) = "run" ++ "$") ∧
    ((k = "read" ∨ k = "write" ∨ k = "ffi") → d.path = none →
      cacheKey (formDescriptor pfu d) = k ++ "-undefined&") ∧
    (k = "hrtime" → cacheKey (formDescriptor pfu d) = "hrtime" ++ "$") := by
  refine ⟨?_, ?_, ?_, ?_, ?_, ?_⟩
  · intro hk hh
    subst hk
    rw [formDescriptor_other pfu d "net" (Or.inl rfl) hn]
    exact cacheKey_net_bare d hn (by rw [hh]; rfl)
  · intro hk hh
    subst hk
    rw [formDescriptor_other pfu d "env" (Or.inr (Or.inl rfl)) hn]
    exact cacheKey_env_bare d hn (by rw [hh]; rfl)
  · intro hk hh
    subst hk
    rw [formDescriptor_other pfu d "sys" (Or.inr (Or.inr (Or.inl rfl))) hn]
    exact cacheKey_sys_bare d hn (by rw [hh]; rfl)
  · intro hk hh
    subst hk
    rw [formDescriptor_run pfu d hn]
    refine cacheKey_run_bare _ hn ?_
    show truthy (readProp (some (pfu (readProp d.command)))) = false
    rw [readProp_some, hh, readProp_none, hpfu]
    rfl
  · intro hk hh
    rw [formDescriptor_rwf pfu d k hk hn]
    rw [cacheKey_rwf { d with path := some (pfu (readProp d.path)) }
      k hk hn (pfu (readProp d.path)) rfl]
    rw [hh, readProp_none, hpfu]
    show k ++ ("-" ++ "undefined" ++ "&") = k ++ "-undefined&"
    rfl
  · intro hk
    subst hk
    rw [formDescriptor_other pfu d "hrtime" (Or.inr (Or.inr (Or.inr rfl))) hn]
    exact cacheKey_hrtime d hn

/-- C5 amended witness: concrete instances — a path-less read descriptor
keys to `"read-undefined&"`, a host-less net descriptor to `"net$"`. -/
theorem absent_field_key_amended_witness :
    cacheKey (formDescriptor pathFromURL_model dReadNoPath) =
      "read" ++ "-undefined&" ∧
    cacheKey (formDescriptor pathFromURL_model
      { name := some (JVal.str "net") }) = "net" ++ "$" :=
  ⟨(absent_field_key_amended pathFromURL_model rfl dReadNoPath "read"
      rfl).2.2.2.2.1 (Or.inl rfl) rfl,
   (absent_field_key_amended pathFromURL_model rfl
      { name := some (JVal.str "net") } "net" rfl).1 rfl rfl⟩

/-- For the truthiness-tested kinds `net`/`run`/`env`/`sys`, a falsy
identifying sub-field value yields the bare key `"{kind}$"`. -/
theorem cacheKey_truthyKind_bare (d : Descriptor) (k : String)
    (hk : k = "net" ∨ k = "run" ∨ k = "env" ∨ k = "sys")
    (hn : readProp d.name = JVal.str k)
    (hv : truthy (readProp (idField d)) = false) :
    cacheKey d = k ++ "$" := by
  rcases hk with rfl | rfl | rfl | rfl
  · have hid : idField d = d.host := by simp [idField, hn]
    rw [hid] at hv
    exact cacheKey_net_bare d hn hv
  · have hid : idField d = d.command := by simp [idField, hn]
    rw [hid] at hv
    exact cacheKey_run_bare d hn hv
  · have hid : idField d = d.variable_ := by simp [idField, hn]
    rw [hid] at hv
    exact cacheKey_env_bare d hn hv
  · have hid : idField d = d.kind := by simp [idField, hn]
    rw [hid] at hv
    exact cacheKey_sys_bare d hn hv

/-- C6 (sub-field presence asymmetry): for `read`/`write`/`ffi` the key
derivation tests property presence, so any present `path` — empty string
and `undefined` included — yields the suffixed key `"{kind}-{value}&"`;
for each of the truthiness-tested kinds `net`/`run`/`env`/`sys` an
empty-string sub-field is falsy, so the key is the bare `"{kind}$"`, equal
to the key of a descriptor of that kind lacking the field entirely, and
the two resolve to the same `PermissionStatus` instance. -/
theorem subfield_presence_asymmetry :
    (∀ (d : Descriptor) (k : String), (k = "read" ∨ k = "write" ∨ k = "ffi") →
      readProp d.name = JVal.str k → ∀ u, d.path = some u →
      cacheKey d = k ++ ("-" ++ jvalToString u ++ "&")) ∧
    (∀ (d : Descriptor) (k : String), (k = "read" ∨ k = "write" ∨ k = "ffi") →
      readProp d.name = JVal.str k → d.path = some (JVal.str "") →
      cacheKey d = k ++ "-&") ∧
    (∀ (d : Descriptor) (k : String), (k = "read" ∨ k = "write" ∨ k = "ffi") →
      readProp d.name = JVal.str k → d.path = some JVal.undef →
      cacheKey d = k ++ "-undefined&") ∧
    (∀ (d : Descriptor) (k : String),
      (k = "net" ∨ k = "run" ∨ k = "env" ∨ k = "sys") →
      readProp d.name = JVal.str k → idField d = some (JVal.str "") →
      cacheKey d = k ++ "$") ∧
    (∀ (d d' : Descriptor) (k : String),
      (k = "net" ∨ k = "run" ∨ k = "env" ∨ k = "sys") →
      readProp d.name = JVal.str k → idField d = some (JVal.str "") →
      readProp d'.name = JVal.str k → idField d' = none →
      cacheKey d = cacheKey d' ∧
      ∀ (σ : CacheState) (s s' : PermState),
        (cache (cache σ d s).newState d' s').statusId =
          (cache σ d s).statusId) := by
  have hbare : ∀ (d : Descriptor) (k : String),
      (k = "net" ∨ k = "run" ∨ k = "env" ∨ k = "sys") →
      readProp d.name = JVal.str k → idField d = some (JVal.str "") →
      cacheKey d = k ++ "$" := by
    intro d k hk hn hf
    exact cacheKey_truthyKind_bare d k hk hn (by rw [hf, readProp_some]; rfl)
  refine ⟨?_, ?_, ?_, hbare, ?_⟩
  · intro d k hk hn u hp
    exact cacheKey_rwf d k hk hn u hp
  · intro d k hk hn hp
    rw [cacheKey_rwf d k hk hn _ hp]
    show k ++ ("-" ++ "" ++ "&") = k ++ "-&"
    rfl
  · intro d k hk hn hp
    rw [cacheKey_rwf d k hk hn _ hp]
    show k ++ ("-" ++ "undefined" ++ "&") = k ++ "-undefined&"
    rfl
  · intro d d' k hk hn hf hn' hf'
    have hkey : cacheKey d = cacheKey d' := by
      rw [hbare d k hk hn hf,
        cacheKey_truthyKind_bare d' k hk hn' (by rw [hf', readProp_none]; rfl)]
    refine ⟨hkey, ?_⟩
    intro σ s s'
    have hself := cache_findEntry_self σ d s
    have hself' : findEntry (cache σ d s).newState.entries (cacheKey d') =
        some ⟨s, (cache σ d s).statusId⟩ := by rw [← hkey]; exact hself
    exact cache_statusId_of_found _ d' s' _ hself'

/-- C6 witness: concrete instances of the asymmetry — a present empty or
undefined path suffixes the key, while an empty-string host, command,
variable or sys qualifier collapses to the bare key and, for each of the
four kinds, shares the instance with the field-less descriptor. -/
theorem subfield_presence_asymmetry_witness :
    cacheKey { name := some (JVal.str "read"), path := some (JVal.str "") } =
      "read" ++ "-&" ∧
    cacheKey { name := some (JVal.str "read"), path := some JVal.undef } =
      "read" ++ "-undefined&" ∧
    cacheKey { name := some (JVal.str "net"), host := some (JVal.str "") } =
      "net" ++ "$" ∧
    cacheKey { name := some (JVal.str "run"), command := some (JVal.str "") } =
      "run" ++ "$" ∧
    cacheKey { name := some (JVal.str "env"), variable_ := some (JVal.str "") } =
      "env" ++ "$" ∧
    cacheKey { name := some (JVal.str "sys"), kind := some (JVal.str "") } =
      "sys" ++ "$" ∧
    (cache (cache initialState
        { name := some (JVal.str "net"), host := some (JVal.str "") }
        PermState.granted).newState
      { name := some (JVal.str "net") } PermState.denied).statusId =
      (cache initialState
        { name := some (JVal.str "net"), host := some (JVal.str "") }
        PermState.granted).statusId ∧
    (cache (cache initialState
        { name := some (JVal.str "run"), command := some (JVal.str "") }
        PermState.granted).newState
      { name := some (JVal.str "run") } PermState.denied).statusId =
      (cache initialState
        { name := some (JVal.str "run"), command := some (JVal.str "") }
        PermState.granted).statusId ∧
    (cache (cache initialState
        { name := some (JVal.str "env"), variable_ := some (JVal.str "") }
        PermState.granted).newState
      { name := some (JVal.str "env") } PermState.denied).statusId =
      (cache initialState
        { name := some (JVal.str "env"), variable_ := some (JVal.str "") }
        PermState.granted).statusId ∧
    (cache (cache initialState
        { name := some (JVal.str "sys"), kind := some (JVal.str "") }
        PermState.granted).newState
      { name := some (JVal.str "sys") } PermState.denied).statusId =
      (cache initialState
        { name := some (JVal.str "sys"), kind := some (JVal.str "") }
        PermState.granted).statusId :=
  ⟨subfield_presence_asymmetry.2.1
      { name := some (JVal.str "read"), path := some (JVal.str "") }
      "read" (Or.inl rfl) rfl rfl,
   subfield_presence_asymmetry.2.2.1
      { name := some (JVal.str "read"), path := some JVal.undef }
      "read" (Or.inl rfl) rfl rfl,
   subfield_presence_asymmetry.2.2.2.1
      { name := some (JVal.str "net"), host := some (JVal.str "") }
      "net" (Or.inl rfl) rfl (by decide),
   subfield_presence_asymmetry.2.2.2.1
      { name := some (JVal.str "run"), command := some (JVal.str "") }
      "run" (Or.inr (Or.inl rfl)) rfl (by decide),
   subfield_presence_asymmetry.2.2.2.1
      { name := some (JVal.str "env"), variable_ := some (JVal.str "") }
      "env" (Or.inr (Or.inr (Or.inl rfl))) rfl (by decide),
   subfield_presence_asymmetry.2.2.2.1
      { name := some (JVal.str "sys"), kind := some (JVal.str "") }
      "sys" (Or.inr (Or.inr (Or.inr rfl))) rfl (by decide),
   ((subfield_presence_asymmetry.2.2.2.2
      { name := some (JVal.str "net"), host := some (JVal.str "") }
      { name := some (JVal.str "net") } "net" (Or.inl rfl) rfl (by decide)
      rfl (by decide)).2 initialState PermState.granted PermState.denied),
   ((subfield_presence_asymmetry.2.2.2.2
      { name := some (JVal.str "run"), command := some (JVal.str "") }
      { name := some (JVal.str "run") } "run" (Or.inr (Or.inl rfl)) rfl
      (by decide) rfl (by decide)).2
      initialState PermState.granted PermState.denied),
   ((subfield_presence_asymmetry.2.2.2.2
      { name := some (JVal.str "env"), variable_ := some (JVal.str "") }
      { name := some (JVal.str "env") } "env" (Or.inr (Or.inr (Or.inl rfl)))
      rfl (by decide) rfl (by decide)).2
      initialState PermState.granted PermState.denied),
   ((subfield_presence_asymmetry.2.2.2.2
      { name := some (JVal.str "sys"), kind := some (JVal.str "") }
      { name := some (JVal.str "sys") } "sys" (Or.inr (Or.inr (Or.inr rfl)))
      rfl (by decide) rfl (by decide)).2
      initialState PermState.granted PermState.denied)⟩

/-- When the event is non-cancelable and not already prevented, the
inherited dispatch leaves it untouched and reports not-prevented. -/
theorem superDispatch_noncancelable (ls : List Bool) (e : JSEvent)
    (hc : e.cancelable = false) (hp : e.defaultPrevented = false) :
    superDispatchEvent ls e = (e, true) := by
  have hfold : ls.foldl (fun ev l => if l then preventDefault ev else ev) e = e := by
    induction ls with
    | nil => rfl
    | cons b rest ih =>
      have hstep : (if b = true then preventDefault e else e) = e := by
        cases b
        · simp
        · simp [preventDefault, hc]
      simp only [List.foldl_cons, hstep]
      exact ih
  simp [superDispatchEvent, hfold, hp]

/-- A status object with one prevent-calling registered listener and a set
(non-preventing) `onchange` slot. -/
def stOneListener : PermissionStatus :=
  { stateRef := none, onchange := some false, listeners := [true] }

/-- C7 counterexample: dispatching a cancelable event on a status object
whose registered listener calls `preventDefault` runs the listener, skips
the set `onchange` slot entirely (the inherited dispatch reported
prevented), and returns `false` — so `dispatchEvent` does not always run
the assignable slot, and a plain registered listener, not only the slot,
can mark the event prevented. -/
theorem dispatch_counterexample :
    stOneListener.onchange = some false ∧
    PermissionStatus.dispatchEvent stOneListener
        { cancelable := true, defaultPrevented := false } =
      { finalEvent := { cancelable := true, defaultPrevented := true },
        returned := false, listenersRan := 1, onchangeRan := false } :=
  ⟨rfl, rfl⟩

/-- C7 amended: `dispatchEvent` always runs every registered listener (via
the inherited dispatch); it runs the `onchange` slot exactly when the slot
is set and the inherited dispatch reported the event not prevented; it
returns `true` exactly when the event ends up not prevented; and a
non-cancelable, initially unprevented event cannot be prevented at all:
it is returned unchanged with result `true`. -/
theorem dispatch_semantics_amended (st : PermissionStatus) (e : JSEvent) :
    (PermissionStatus.dispatchEvent st e).listenersRan =
      st.listeners.length ∧
    ((PermissionStatus.dispatchEvent st e).onchangeRan =
      (st.onchange.isSome && (superDispatchEvent st.listeners e).2)) ∧
    (PermissionStatus.dispatchEvent st e).returned =
      !(PermissionStatus.dispatchEvent st e).finalEvent.defaultPrevented ∧
    (e.cancelable = false → e.defaultPrevented = false →
      (PermissionStatus.dispatchEvent st e).returned = true ∧
      (PermissionStatus.dispatchEvent st e).finalEvent = e) := by
  refine ⟨?_, ?_, ?_, ?_⟩
  · cases hoc : st.onchange with
    | none => simp [PermissionStatus.dispatchEvent, hoc]
    | some h =>
      by_cases hs : (superDispatchEvent st.listeners e).2
      · simp [PermissionStatus.dispatchEvent, hoc, hs]
      · simp [PermissionStatus.dispatchEvent, hoc, hs]
  · cases hoc : st.onchange with
    | none => simp [PermissionStatus.dispatchEvent, hoc]
    | some h =>
      by_cases hs : (superDispatchEvent st.listeners e).2
      · simp [PermissionStatus.dispatchEvent, hoc, hs]
      · simp [PermissionStatus.dispatchEvent, hoc, hs,
          Bool.eq_false_iff.mp (Bool.not_eq_true _ ▸ hs)]
  · cases hoc : st.onchange with
    | none =>
      simp only [PermissionStatus.dispatchEvent, hoc, superDispatchEvent]
    | some h =>
      by_cases hs : (superDispatchEvent st.listeners e).2
      · simp [PermissionStatus.dispatchEvent, hoc, hs]
      · have hs' : (superDispatchEvent st.listeners e).2 = false :=
          Bool.not_eq_true _ ▸ Bool.eq_false_iff.mpr hs
        simp only [PermissionStatus.dispatchEvent, hoc, hs', if_false]
        unfold superDispatchEvent at hs' ⊢
        simp at hs'
        simp [hs']
  · intro hc hp
    have hsup := superDispatch_noncancelable st.listeners e hc hp
    cases hoc : st.onchange with
    | none => simp [PermissionStatus.dispatchEvent, hoc, hsup, hp]
    | some h =>
      cases h <;> simp [PermissionStatus.dispatchEvent, hoc, hsup,
        preventDefault, hc, hp]

/-- C7 amended witness: the amended dispatch facts evaluated on a status
object with no listeners, a `null` slot, and a non-cancelable event. -/
theorem dispatch_semantics_amended_witness :
    (PermissionStatus.dispatchEvent ⟨none, none, []⟩ ⟨false, false⟩).listenersRan = 0 ∧
    (PermissionStatus.dispatchEvent ⟨none, none, []⟩ ⟨false, false⟩).returned = true ∧
    (PermissionStatus.dispatchEvent ⟨none, none, []⟩ ⟨false, false⟩).finalEvent =
      ⟨false, false⟩ :=
  ⟨(dispatch_semantics_amended ⟨none, none, []⟩ ⟨false, false⟩).1,
   ((dispatch_semantics_amended ⟨none, none, []⟩ ⟨false, false⟩).2.2.2 rfl rfl).1,
   ((dispatch_semantics_amended ⟨none, none, []⟩ ⟨false, false⟩).2.2.2 rfl rfl).2⟩

/-- C8 (`serializePermissions`): a non-null object is rewritten to a fresh
configuration whose `read`/`write`/`run`/`ffi` properties have array
values mapped through `pathFromURL` and other values carried over, whose
`env`/`hrtime`/`net`/`sys` properties are carried over (arrays as verbatim
copies), and any non-object argument is returned unchanged. -/
theorem serializePermissions_spec (pfu : JVal → JVal) :
    (∀ t, serializePermissions pfu (Config.nonObject t) = Config.nonObject t) ∧
    serializePermissions pfu Config.jsNull = Config.jsNull ∧
    (∀ props, ∃ out,
      serializePermissions pfu (Config.obj props) = Config.obj out ∧
      getProp out "read" = serializeFsVal pfu (getProp props "read") ∧
      getProp out "write" = serializeFsVal pfu (getProp props "write") ∧
      getProp out "run" = serializeFsVal pfu (getProp props "run") ∧
      getProp out "ffi" = serializeFsVal pfu (getProp props "ffi") ∧
      getProp out "env" = getProp props "env" ∧
      getProp out "hrtime" = getProp props "hrtime" ∧
      getProp out "net" = getProp props "net" ∧
      getProp out "sys" = getProp props "sys") := by
  have hcopy : ∀ v : ConfigVal, serializeCopyVal v = v := by
    intro v
    cases v <;> rfl
  refine ⟨fun t => rfl, rfl, fun props => ⟨_, rfl, ?_, ?_, ?_, ?_, ?_, ?_, ?_, ?_⟩⟩ <;>
    simp [serializeFsKeys, serializeCopyKeys, getProp, hcopy]

/-- C9 (deferred–immediate equivalence): each deferred form resolves with
exactly the value its immediate form returns and rejects with exactly the
error it throws, with identical cache-state change, engine calls and
dispatched events. -/
theorem deferred_immediate_equiv (pfu : JVal → JVal) (ans : PermState)
    (σ : CacheState) (r : RawDesc) :
    ((Permissions.query pfu ans σ r).newState =
        (Permissions.querySync pfu ans σ r).newState ∧
      (Permissions.query pfu ans σ r).engineCalls =
        (Permissions.querySync pfu ans σ r).engineCalls ∧
      (Permissions.query pfu ans σ r).events =
        (Permissions.querySync pfu ans σ r).events ∧
      (∀ v, (Permissions.query pfu ans σ r).promise = JSPromise.resolved v ↔
        (Permissions.querySync pfu ans σ r).result = Except.ok v) ∧
      (∀ err, (Permissions.query pfu ans σ r).promise = JSPromise.rejected err ↔
        (Permissions.querySync pfu ans σ r).result = Except.error err)) ∧
    ((Permissions.request pfu ans σ r).newState =
        (Permissions.requestSync pfu ans σ r).newState ∧
      (Permissions.request pfu ans σ r).engineCalls =
        (Permissions.requestSync pfu ans σ r).engineCalls ∧
      (Permissions.request pfu ans σ r).events =
        (Permissions.requestSync pfu ans σ r).events ∧
      (∀ v, (Permissions.request pfu ans σ r).promise = JSPromise.resolved v ↔
        (Permissions.requestSync pfu ans σ r).result = Except.ok v) ∧
      (∀ err, (Permissions.request pfu ans σ r).promise = JSPromise.rejected err ↔
        (Permissions.requestSync pfu ans σ r).result = Except.error err)) ∧
    ((Permissions.revoke pfu ans σ r).newState =
        (Permissions.revokeSync pfu ans σ r).newState ∧
      (Permissions.revoke pfu ans σ r).engineCalls =
        (Permissions.revokeSync pfu ans σ r).engineCalls ∧
      (Permissions.revoke pfu ans σ r).events =
        (Permissions.revokeSync pfu ans σ r).events ∧
      (∀ v, (Permissions.revoke pfu ans σ r).promise = JSPromise.resolved v ↔
        (Permissions.revokeSync pfu ans σ r).result = Except.ok v) ∧
      (∀ err, (Permissions.revoke pfu ans σ r).promise = JSPromise.rejected err ↔
        (Permissions.revokeSync pfu ans σ r).result = Except.error err)) := by
  cases h : (Permissions.querySync pfu ans σ r).result with
  | ok v =>
    simp [Permissions.query, Permissions.request, Permissions.revoke,
      requestSync_eq_querySync, revokeSync_eq_querySync, h]
  | error e =>
    simp [Permissions.query, Permissions.request, Permissions.revoke,
      requestSync_eq_querySync, revokeSync_eq_querySync, h]

/-- C9 witness: on a concrete successful query the deferred form resolves
with exactly the immediate form's value. -/
theorem deferred_immediate_equiv_witness :
    (Permissions.query pathFromURL_model PermState.granted initialState
        (RawDesc.obj dReadTmpA)).promise = JSPromise.resolved 0 ↔
    (Permissions.querySync pathFromURL_model PermState.granted initialState
        (RawDesc.obj dReadTmpA)).result = Except.ok 0 :=
  (deferred_immediate_equiv pathFromURL_model PermState.granted initialState
    (RawDesc.obj dReadTmpA)).1.2.2.2.1 0

/-- C10 (Construction guard): constructing a `PermissionStatus` with any
key other than the restricted `illegalConstructorKey` token fails with
`TypeError "Illegal constructor."` and produces no object; with the token
(held only by the status cache) construction succeeds. -/
theorem construction_guard :
    (∀ (state : Option Nat) (key : ConstructorKey),
      key ≠ ConstructorKey.illegalConstructorKey →
      PermissionStatus.construct state key =
        Except.error (JSError.typeError "Illegal constructor.")) ∧
    (∀ state : Option Nat,
      PermissionStatus.construct state ConstructorKey.illegalConstructorKey =
        Except.ok { stateRef := state, onchange := none, listeners := [] }) := by
  constructor
  · intro state key hk
    simp [PermissionStatus.construct, hk]
  · intro state
    simp [PermissionStatus.construct]

/-- C10 witness: a concrete non-token key fails, the token succeeds. -/
theorem construction_guard_witness :
    PermissionStatus.construct (some 0) (ConstructorKey.other 0) =
      Except.error (JSError.typeError "Illegal constructor.") ∧
    PermissionStatus.construct (some 0) ConstructorKey.illegalConstructorKey =
      Except.ok { stateRef := some 0, onchange := none, listeners := [] } :=
  ⟨construction_guard.1 (some 0) (ConstructorKey.other 0) (by decide),
   construction_guard.2 (some 0)⟩

end Permissions10
